import Mathlib

/-!
Verification of the numeric core of CPCovid-Synth: the SNR metric family
(src/include/comparison_tools/SNR.py) and the adaptive axis heuristics
(src/display/formattingFigures.py), embedded shallowly over lists of reals
(series) and natural numbers (day counts, days of month).
-/

/-! ## Axis adaptivity heuristic (src/display/formattingFigures.py) -/

/-- The tick locator returned by `adaptiveDaysLocator`: one of the four
matplotlib locators the source constructs, together with the numeric
parameters it passes (`interval`, `byweekday`, `bymonthday`). -/
inductive Locator where
  | daily (interval : ℕ)
  | weekly (interval : ℕ) (byweekday : ℕ)
  | monthly (interval : ℕ) (bymonthday : ℕ)
  | yearly
  deriving DecidableEq

/-- The date label format returned alongside the locator: the source's
format strings are d-b-Y, b-Y and Y. -/
inductive DateFmt where
  | dayMonYear
  | monYear
  | year
  deriving DecidableEq

/-- Rounding of the nonnegative rational `n / d` to the nearest integer,
ties to even: the semantics of `int(np.round(n / d))` in the source for the
(exactly representable) quotients that occur there. -/
def npRound (n d : ℕ) : ℕ :=
  let q := n / d
  let r := n % d
  if 2 * r < d then q
  else if d < 2 * r then q + 1
  else if q % 2 = 0 then q else q + 1

/-- Day-of-month normalization at the top of `adaptiveDaysLocator`:
`if firstDay in [29, 30, 31]: firstDay = 1`. -/
def normalizeFirstDay (d : ℕ) : ℕ :=
  if d = 29 ∨ d = 30 ∨ d = 31 then 1 else d

/-- `adaptiveDaysLocator` from src/display/formattingFigures.py, lines 38-59,
over the length of the date range and the day-of-month of its first date.
The branch conditions are the source's comparisons
(`days < 35`, `34 < days < 111`, `110 < days < 550`, else). -/
def adaptiveDaysLocator (days firstDayRaw : ℕ) : Locator × DateFmt :=
  let firstDay := normalizeFirstDay firstDayRaw
  if days < 35 then
    (Locator.daily (npRound days 5), DateFmt.dayMonYear)
  else if 34 < days ∧ days < 111 then
    (Locator.weekly (npRound days 35) ((firstDay + 6) / 7), DateFmt.dayMonYear)
  else if 110 < days ∧ days < 550 then
    (Locator.monthly (npRound days 140) firstDay, DateFmt.monYear)
  else
    (Locator.yearly, DateFmt.year)

/-- The locator exactly as claim C2 words it: four branches keyed on
`days < 35`, `35 ≤ days ≤ 110`, `111 ≤ days ≤ 549`, `days ≥ 550`, the weekly
anchor `ceil(firstDay / 7)` computed from the normalized first day, and the
monthly anchor taken as the raw day-of-month of the first date. -/
def adaptiveDaysLocatorClaim (days firstDayRaw : ℕ) : Locator × DateFmt :=
  let firstDay := normalizeFirstDay firstDayRaw
  if days < 35 then
    (Locator.daily (npRound days 5), DateFmt.dayMonYear)
  else if 35 ≤ days ∧ days ≤ 110 then
    (Locator.weekly (npRound days 35) ((firstDay + 6) / 7), DateFmt.dayMonYear)
  else if 111 ≤ days ∧ days ≤ 549 then
    (Locator.monthly (npRound days 140) firstDayRaw, DateFmt.monYear)
  else
    (Locator.yearly, DateFmt.year)

/-- Claim C2 amended: identical to `adaptiveDaysLocatorClaim` except that the
monthly anchor is the normalized first day (29-31 mapped to 1), matching the
source, which normalizes before branching. -/
def adaptiveDaysLocatorAmended (days firstDayRaw : ℕ) : Locator × DateFmt :=
  let firstDay := normalizeFirstDay firstDayRaw
  if days < 35 then
    (Locator.daily (npRound days 5), DateFmt.dayMonYear)
  else if 35 ≤ days ∧ days ≤ 110 then
    (Locator.weekly (npRound days 35) ((firstDay + 6) / 7), DateFmt.dayMonYear)
  else if 111 ≤ days ∧ days ≤ 549 then
    (Locator.monthly (npRound days 140) firstDay, DateFmt.monYear)
  else
    (Locator.yearly, DateFmt.year)

/-! ## SNR engine (src/include/comparison_tools/SNR.py) -/

/-- The quantity `np.sum(np.abs(estimation[1:] - groundTruth[1:])) / (len(groundTruth) - 1)`
from line 14 of SNR.py: the mean absolute difference over indices `[1, N)`. -/
noncomputable def errorMean (groundTruth estimation : List ℝ) : ℝ :=
  (List.zipWith (fun e g => |e - g|) estimation.tail groundTruth.tail).sum /
    ((groundTruth.length : ℝ) - 1)

/-- `SignaltoNoiseRatio` from SNR.py, lines 4-19: the outlier test compares
`(estimation[0] - groundTruth[0]) / errorMean` (a signed difference) against
100000; when it exceeds, index 0 is dropped from the squared-error sum. -/
noncomputable def SignaltoNoiseRatio (groundTruth estimation : List ℝ) : ℝ :=
  let normOrder : ℕ := 2
  let eM := errorMean groundTruth estimation
  let SquaredError :=
    if (estimation.headI - groundTruth.headI) / eM > 100000 then
      (List.zipWith (fun e g => |e - g| ^ normOrder) estimation.tail groundTruth.tail).sum
    else
      (List.zipWith (fun e g => |e - g| ^ normOrder) estimation groundTruth).sum
  10 * Real.logb 10 ((groundTruth.map (fun g => |g| ^ normOrder)).sum / SquaredError)

/-- The `assert (len(groundTruth) == len(estimation))` of line 13 of SNR.py as a
fallible wrapper: `none` is the length-mismatch failure, `some` the returned SNR. -/
noncomputable def SignaltoNoiseRatio_checked (groundTruth estimation : List ℝ) :
    Option ℝ :=
  if groundTruth.length = estimation.length then
    some (SignaltoNoiseRatio groundTruth estimation)
  else none

/-- `SignaltoNoiseRatioMC`'s deviation term `np.std`, zero delta-degrees-of-freedom:
the square root of the mean of squared deviations from the mean (divisor `n`). -/
noncomputable def npStd (xs : List ℝ) : ℝ :=
  Real.sqrt ((xs.map (fun x => (x - xs.sum / (xs.length : ℝ)) ^ 2)).sum /
    (xs.length : ℝ))

/-- `SignaltoNoiseRatioMC` from SNR.py, lines 22-38: one SNR per draw, then
`(1 / nbDraws) * np.sum(SNREstim)` and `(1.96 / np.sqrt(nbDraws)) * np.std(SNREstim)`. -/
noncomputable def SignaltoNoiseRatioMC (groundTruth : List ℝ)
    (estimations : List (List ℝ)) : ℝ × ℝ :=
  let nbDraws := estimations.length
  let SNREstim := estimations.map (fun draw => SignaltoNoiseRatio groundTruth draw)
  ((1 / (nbDraws : ℝ)) * SNREstim.sum,
    (1.96 / Real.sqrt (nbDraws : ℝ)) * npStd SNREstim)

/-- `SNRByDep_indic` from SNR.py, lines 41-54: the loop
`for d in range(nbDeps): indicators[d] = SignaltoNoiseRatio(groundTruth[d], estimation[d])`
with `nbDeps` the row count of `estimation`. -/
noncomputable def SNRByDep_indic (groundTruth estimation : List (List ℝ)) : List ℝ :=
  (List.range estimation.length).map
    (fun d => SignaltoNoiseRatio (groundTruth.getD d []) (estimation.getD d []))

/-- `SNRMean_indic` from SNR.py, lines 57-72:
`1 / nbDeps * np.sum(SNRByDep_indic(groundTruth, estimation))`. -/
noncomputable def SNRMean_indic (groundTruth estimation : List (List ℝ)) : ℝ :=
  (1 / (estimation.length : ℝ)) * (SNRByDep_indic groundTruth estimation).sum

/-- The SNR formula exactly as claim C1 words it, with indexed sums: the
outlier test uses the ABSOLUTE difference at index 0 divided by the mean
absolute difference over `[1, N)`. -/
noncomputable def snrClaimFormula (groundTruth estimation : List ℝ) : ℝ :=
  let N := groundTruth.length
  let eM := (∑ i in Finset.Ico 1 N, |estimation.getD i 0 - groundTruth.getD i 0|) /
    ((N : ℝ) - 1)
  let sqErr :=
    if |estimation.getD 0 0 - groundTruth.getD 0 0| / eM > 100000 then
      ∑ i in Finset.Ico 1 N, |estimation.getD i 0 - groundTruth.getD i 0| ^ 2
    else
      ∑ i in Finset.range N, |estimation.getD i 0 - groundTruth.getD i 0| ^ 2
  10 * Real.logb 10 ((∑ i in Finset.range N, |groundTruth.getD i 0| ^ 2) / sqErr)

/-- Claim C1 amended: the same formula with the outlier test on the SIGNED
difference `(estimation[0] - groundTruth[0]) / errorMean`, as the source codes it. -/
noncomputable def snrAmendedFormula (groundTruth estimation : List ℝ) : ℝ :=
  let N := groundTruth.length
  let eM := (∑ i in Finset.Ico 1 N, |estimation.getD i 0 - groundTruth.getD i 0|) /
    ((N : ℝ) - 1)
  let sqErr :=
    if (estimation.getD 0 0 - groundTruth.getD 0 0) / eM > 100000 then
      ∑ i in Finset.Ico 1 N, |estimation.getD i 0 - groundTruth.getD i 0| ^ 2
    else
      ∑ i in Finset.range N, |estimation.getD i 0 - groundTruth.getD i 0| ^ 2
  10 * Real.logb 10 ((∑ i in Finset.range N, |groundTruth.getD i 0| ^ 2) / sqErr)

/-- `np.max` over a nonempty series: the running maximum of the entries. -/
noncomputable def listMax : List ℝ → ℝ
  | [] => 0
  | x :: xs => xs.foldl max x

/-- `adaptiveYLimit` from src/display/formattingFigures.py, lines 28-35:
`floorPowerTen = np.floor(np.log(np.max(Ydata)) / np.log(10))`, then
`np.ceil(np.max(Ydata) / 10 ** floorPowerTen) * 10 ** floorPowerTen`. -/
noncomputable def adaptiveYLimit (Ydata : List ℝ) : ℝ :=
  let floorPowerTen : ℤ := ⌊Real.log (listMax Ydata) / Real.log 10⌋
  (⌈listMax Ydata / (10 : ℝ) ^ floorPowerTen⌉ : ℤ) * (10 : ℝ) ^ floorPowerTen

/-- The y-limit as claim C7 words it: the maximum `m` rounded up to the
nearest multiple of `10 ^ floor(log10 m)`. -/
noncomputable def yLimitSpec (m : ℝ) : ℝ :=
  (⌈m / (10 : ℝ) ^ ⌊Real.logb 10 m⌋⌉ : ℤ) * (10 : ℝ) ^ ⌊Real.logb 10 m⌋

/-! ## Bridging lemmas between list reductions and indexed sums -/

/-- The head with default, `headI`, agrees with `getD 0` on real series. -/
lemma headI_eq_getD (l : List ℝ) : l.headI = l.getD 0 0 := by
  cases l <;> rfl

/-- Indexing into a tail shifts the index by one. -/
lemma tail_getD (l : List ℝ) (i : ℕ) : l.tail.getD i 0 = l.getD (i + 1) 0 := by
  cases l <;> rfl

/-- A zipped reduction over two equal-length series is the indexed sum of the
combined entries. -/
lemma zipWith_sum_eq (f : ℝ → ℝ → ℝ) :
    ∀ (as bs : List ℝ), as.length = bs.length →
      (List.zipWith f as bs).sum =
        ∑ i in Finset.range as.length, f (as.getD i 0) (bs.getD i 0)
  | [], [], _ => by simp
  | [], _ :: _, h => by simp at h
  | _ :: _, [], h => by simp at h
  | a :: as, b :: bs, h => by
    have ih := zipWith_sum_eq f as bs (by simpa using h)
    simp only [List.zipWith_cons_cons, List.sum_cons, List.length_cons,
      Finset.sum_range_succ', List.getD_cons_succ, List.getD_cons_zero, ih]
    ring

/-- A mapped reduction over a series is the indexed sum of the images. -/
lemma map_sum_eq {α : Type} (d : α) (g : α → ℝ) (l : List α) :
    (l.map g).sum = ∑ i in Finset.range l.length, g (l.getD i d) := by
  induction l with
  | nil => simp
  | cons a as ih =>
    simp only [List.map_cons, List.sum_cons, List.length_cons,
      Finset.sum_range_succ', List.getD_cons_succ, List.getD_cons_zero, ih]
    ring

/-- A reduction of a function mapped over `List.range` is the sum over
`Finset.range`. -/
lemma range_map_sum (f : ℕ → ℝ) (n : ℕ) :
    ((List.range n).map f).sum = ∑ i in Finset.range n, f i := by
  induction n with
  | zero => simp
  | succ n ih => rw [List.range_succ, List.map_append, List.sum_append,
      Finset.sum_range_succ, ih]; simp

/-- C1 (amended): for equal-length series with at least two samples,
`SignaltoNoiseRatio` returns `10 * log10(sum |groundTruth[i]|^2 / squaredError)`
where the squared error skips index 0 exactly when the SIGNED difference
`estimation[0] - groundTruth[0]`, divided by the mean absolute difference over
indices `[1, N)`, exceeds 100000. -/
theorem snr_closed_form (gt est : List ℝ) (hlen : est.length = gt.length)
    (hN : 2 ≤ gt.length) :
    SignaltoNoiseRatio gt est = snrAmendedFormula gt est := by
  have htail : est.tail.length = gt.tail.length := by simp [hlen]
  have h1 : est.tail.length = gt.length - 1 := by simp [hlen]
  have hEM : errorMean gt est =
      (∑ i in Finset.Ico 1 gt.length, |est.getD i 0 - gt.getD i 0|) /
        ((gt.length : ℝ) - 1) := by
    unfold errorMean
    rw [zipWith_sum_eq _ _ _ htail, Finset.sum_Ico_eq_sum_range, h1]
    congr 1
    exact Finset.sum_congr rfl fun i _ => by
      rw [tail_getD, tail_getD, Nat.add_comm 1 i]
  have hsq_full : (List.zipWith (fun e g => |e - g| ^ 2) est gt).sum =
      ∑ i in Finset.range gt.length, |est.getD i 0 - gt.getD i 0| ^ 2 := by
    rw [zipWith_sum_eq _ _ _ hlen, hlen]
  have hsq_tail : (List.zipWith (fun e g => |e - g| ^ 2) est.tail gt.tail).sum =
      ∑ i in Finset.Ico 1 gt.length, |est.getD i 0 - gt.getD i 0| ^ 2 := by
    rw [zipWith_sum_eq _ _ _ htail, Finset.sum_Ico_eq_sum_range, h1]
    exact Finset.sum_congr rfl fun i _ => by
      rw [tail_getD, tail_getD, Nat.add_comm 1 i]
  simp only [SignaltoNoiseRatio, snrAmendedFormula]
  rw [hEM, hsq_full, hsq_tail, map_sum_eq (0 : ℝ) (fun g => |g| ^ 2) gt,
    headI_eq_getD, headI_eq_getD]

/-- C1 (witness): the amended closed form instantiated on the concrete pair
`groundTruth = [2, 2]`, `estimation = [0, 1]`. -/
theorem snr_closed_form_witness :
    ([(0 : ℝ), 1] : List ℝ).length = ([(2 : ℝ), 2] : List ℝ).length ∧
    2 ≤ ([(2 : ℝ), 2] : List ℝ).length ∧
    SignaltoNoiseRatio [2, 2] [0, 1] = snrAmendedFormula [2, 2] [0, 1] :=
  ⟨rfl, by simp, snr_closed_form [2, 2] [0, 1] rfl (by simp)⟩

/-- C2 (counterexample): for a 400-day range starting on day-of-month 30, the
source anchors monthly ticks at day 1 (it normalizes 29-31 to 1 before every
branch), while the claim anchors them at the first date's raw day-of-month 30. -/
theorem adaptiveDaysLocator_claim_cex :
    adaptiveDaysLocator 400 30 ≠ adaptiveDaysLocatorClaim 400 30 := by
  decide

/-- C2 (amended): `adaptiveDaysLocator` realizes exactly the four mutually
exclusive modes of the claim, on the claim's day ranges, with the claim's
interval and anchor formulas, once the monthly anchor is also taken from the
normalized first day; a 10-day range yields daily ticks with interval 2 and a
400-day range yields monthly ticks with interval 3. -/
theorem adaptiveDaysLocator_modes :
    (∀ days firstDayRaw,
      adaptiveDaysLocator days firstDayRaw =
        adaptiveDaysLocatorAmended days firstDayRaw) ∧
    adaptiveDaysLocator 10 1 = (Locator.daily 2, DateFmt.dayMonYear) ∧
    adaptiveDaysLocator 400 1 = (Locator.monthly 3 1, DateFmt.monYear) := by
  refine ⟨fun days firstDayRaw => ?_, by decide, by decide⟩
  unfold adaptiveDaysLocator adaptiveDaysLocatorAmended
  split_ifs <;> first | rfl | omega

/-- C10: a 1-day or 2-day range falls in the daily branch with tick interval
`round(days / 5) = 0`; within the daily branch (`days < 35`) the interval is
at least 1 exactly when the range has at least 3 dates. -/
theorem adaptiveDaysLocator_degenerate_interval :
    (∀ firstDayRaw,
      adaptiveDaysLocator 1 firstDayRaw = (Locator.daily 0, DateFmt.dayMonYear) ∧
      adaptiveDaysLocator 2 firstDayRaw = (Locator.daily 0, DateFmt.dayMonYear)) ∧
    (∀ days, days < 35 → 1 ≤ npRound days 5 → 3 ≤ days) ∧
    (∀ days, days < 35 → 3 ≤ days → 1 ≤ npRound days 5) := by
  refine ⟨fun firstDayRaw => ⟨rfl, rfl⟩, by decide, by decide⟩

/-- C1 (counterexample): at `groundTruth = [200000, 0]`, `estimation = [0, 1]`
the absolute difference at index 0 over the error mean is 200000 > 100000, so
the claim's formula skips index 0, but the source's signed test
`(estimation[0] - groundTruth[0]) / errorMean = -200000` does not exceed
100000, so the code keeps index 0; the two values differ (one is negative,
the other positive). -/
theorem snr_outlier_cex :
    SignaltoNoiseRatio [200000, 0] [0, 1] ≠ snrClaimFormula [200000, 0] [0, 1] := by
  have hcode : SignaltoNoiseRatio [200000, 0] [0, 1] =
      10 * Real.logb 10 (40000000000 / 40000000001) := by
    simp only [SignaltoNoiseRatio, errorMean]
    norm_num [List.zipWith, abs_of_nonpos, abs_of_nonneg]
  have hclaim : snrClaimFormula [200000, 0] [0, 1] =
      10 * Real.logb 10 40000000000 := by
    simp only [snrClaimFormula]
    norm_num [Finset.sum_Ico_eq_sum_range, Finset.sum_range_succ,
      abs_of_nonpos, abs_of_nonneg]
  rw [hcode, hclaim]
  have hneg : Real.logb 10 (40000000000 / 40000000001) < 0 :=
    Real.logb_neg (by norm_num) (by norm_num) (by norm_num)
  have hpos : (0 : ℝ) < Real.logb 10 40000000000 :=
    Real.logb_pos (by norm_num) (by norm_num)
  nlinarith

/-- C9: `SignaltoNoiseRatio` is not symmetric: on `a = [2, 2]`, `b = [1, 1]`
(equal length, different magnitudes) the SNR is `10 * log10 4` one way and
`10 * log10 1 = 0` the other. -/
theorem snr_not_symmetric :
    ∃ a b : List ℝ, a.length = b.length ∧
      SignaltoNoiseRatio a b ≠ SignaltoNoiseRatio b a := by
  refine ⟨[2, 2], [1, 1], rfl, ?_⟩
  have h1 : SignaltoNoiseRatio [2, 2] [1, 1] = 10 * Real.logb 10 4 := by
    simp only [SignaltoNoiseRatio, errorMean]
    norm_num [List.zipWith, abs_of_nonpos, abs_of_nonneg]
  have h2 : SignaltoNoiseRatio [1, 1] [2, 2] = 10 * Real.logb 10 1 := by
    simp only [SignaltoNoiseRatio, errorMean]
    norm_num [List.zipWith, abs_of_nonpos, abs_of_nonneg]
  rw [h1, h2, Real.logb_one]
  have : (0 : ℝ) < Real.logb 10 4 := Real.logb_pos (by norm_num) (by norm_num)
  nlinarith

/-- C4: the checked SNR fails with the length-mismatch error exactly when the
two series differ in length, and on equal-length inputs it always produces the
numeric result of `SignaltoNoiseRatio`. -/
theorem snr_checked_length : ∀ gt est : List ℝ,
    (SignaltoNoiseRatio_checked gt est = none ↔ gt.length ≠ est.length) ∧
    (gt.length = est.length →
      SignaltoNoiseRatio_checked gt est = some (SignaltoNoiseRatio gt est)) := by
  intro gt est
  by_cases h : gt.length = est.length <;> simp [SignaltoNoiseRatio_checked, h]

/-- C5: on 2D inputs with equal row counts, `SNRByDep_indic` returns one value
per row, the value at row `d` being `SignaltoNoiseRatio` of the two rows at
`d` computed independently: it is the row-wise zip of the SNR. -/
theorem snrByDep_rowwise (gt est : List (List ℝ)) (h : gt.length = est.length) :
    (SNRByDep_indic gt est).length = est.length ∧
    SNRByDep_indic gt est = List.zipWith (fun g e => SignaltoNoiseRatio g e) gt est := by
  refine ⟨by simp [SNRByDep_indic], ?_⟩
  apply List.ext_getElem
  · simp [SNRByDep_indic, h]
  · intro i h1 h2
    simp only [SNRByDep_indic, List.getElem_map, List.getElem_range,
      List.getElem_zipWith]
    simp only [SNRByDep_indic, List.length_map, List.length_range] at h1
    rw [List.getD_eq_getElem, List.getD_eq_getElem]

/-- C5 (witness): the row-wise decomposition on the concrete stacked pair
`groundTruth = [[2, 2]]`, `estimation = [[1, 1]]`. -/
theorem snrByDep_rowwise_witness :
    (SNRByDep_indic [[(2 : ℝ), 2]] [[(1 : ℝ), 1]]).length =
      ([[(1 : ℝ), 1]] : List (List ℝ)).length ∧
    SNRByDep_indic [[(2 : ℝ), 2]] [[(1 : ℝ), 1]] =
      List.zipWith (fun g e => SignaltoNoiseRatio g e)
        [[(2 : ℝ), 2]] [[(1 : ℝ), 1]] :=
  snrByDep_rowwise [[(2 : ℝ), 2]] [[(1 : ℝ), 1]] rfl

/-- C6: on 2D inputs with equal row counts, `SNRMean_indic` is the arithmetic
mean across units of the per-unit SNR values. -/
theorem snrMean_is_mean (gt est : List (List ℝ)) (h : gt.length = est.length) :
    SNRMean_indic gt est =
      (∑ d in Finset.range est.length,
        SignaltoNoiseRatio (gt.getD d []) (est.getD d [])) / (est.length : ℝ) := by
  unfold SNRMean_indic SNRByDep_indic
  rw [range_map_sum]
  ring

/-- C6 (witness): the mean-across-units identity on the concrete stacked pair
`groundTruth = [[2, 2]]`, `estimation = [[1, 1]]`. -/
theorem snrMean_is_mean_witness :
    SNRMean_indic [[(2 : ℝ), 2]] [[(1 : ℝ), 1]] =
      (∑ d in Finset.range ([[(1 : ℝ), 1]] : List (List ℝ)).length,
        SignaltoNoiseRatio (([[(2 : ℝ), 2]] : List (List ℝ)).getD d [])
          (([[(1 : ℝ), 1]] : List (List ℝ)).getD d [])) /
        (([[(1 : ℝ), 1]] : List (List ℝ)).length : ℝ) :=
  snrMean_is_mean [[(2 : ℝ), 2]] [[(1 : ℝ), 1]] rfl

/-- C3: `SignaltoNoiseRatioMC` returns the arithmetic mean of the per-draw SNR
values and `1.96 / sqrt(M)` times their population standard deviation (mean of
squared deviations, divisor `M`, under the square root). -/
theorem snrMC_mean_std (gt : List ℝ) (ests : List (List ℝ))
    (hM : 1 ≤ ests.length) (hN : 2 ≤ gt.length)
    (hlen : ∀ e ∈ ests, e.length = gt.length) :
    (SignaltoNoiseRatioMC gt ests).1 =
      (∑ i in Finset.range ests.length,
        SignaltoNoiseRatio gt (ests.getD i [])) / (ests.length : ℝ) ∧
    (SignaltoNoiseRatioMC gt ests).2 =
      1.96 / Real.sqrt (ests.length : ℝ) *
        Real.sqrt ((∑ i in Finset.range ests.length,
          (SignaltoNoiseRatio gt (ests.getD i []) -
            (∑ j in Finset.range ests.length,
              SignaltoNoiseRatio gt (ests.getD j [])) / (ests.length : ℝ)) ^ 2) /
          (ests.length : ℝ)) := by
  have hsum : (ests.map (fun draw => SignaltoNoiseRatio gt draw)).sum =
      ∑ i in Finset.range ests.length, SignaltoNoiseRatio gt (ests.getD i []) :=
    map_sum_eq ([] : List ℝ) _ ests
  constructor
  · simp only [SignaltoNoiseRatioMC]
    rw [hsum]
    ring
  · simp only [SignaltoNoiseRatioMC, npStd, List.length_map, List.map_map,
      Function.comp_def, hsum]
    congr 2
    rw [map_sum_eq ([] : List ℝ) _ ests]

/-- C3 (witness): the mean/half-width decomposition on the concrete inputs
`groundTruth = [2, 2]` and the single draw `[[1, 1]]`. -/
theorem snrMC_mean_std_witness :
    (SignaltoNoiseRatioMC [(2 : ℝ), 2] [[(1 : ℝ), 1]]).1 =
      (∑ i in Finset.range ([[(1 : ℝ), 1]] : List (List ℝ)).length,
        SignaltoNoiseRatio [(2 : ℝ), 2]
          (([[(1 : ℝ), 1]] : List (List ℝ)).getD i [])) /
        (([[(1 : ℝ), 1]] : List (List ℝ)).length : ℝ) ∧
    (SignaltoNoiseRatioMC [(2 : ℝ), 2] [[(1 : ℝ), 1]]).2 =
      1.96 / Real.sqrt (([[(1 : ℝ), 1]] : List (List ℝ)).length : ℝ) *
        Real.sqrt ((∑ i in Finset.range ([[(1 : ℝ), 1]] : List (List ℝ)).length,
          (SignaltoNoiseRatio [(2 : ℝ), 2]
              (([[(1 : ℝ), 1]] : List (List ℝ)).getD i []) -
            (∑ j in Finset.range ([[(1 : ℝ), 1]] : List (List ℝ)).length,
              SignaltoNoiseRatio [(2 : ℝ), 2]
                (([[(1 : ℝ), 1]] : List (List ℝ)).getD j [])) /
              (([[(1 : ℝ), 1]] : List (List ℝ)).length : ℝ)) ^ 2) /
          (([[(1 : ℝ), 1]] : List (List ℝ)).length : ℝ)) :=
  snrMC_mean_std [(2 : ℝ), 2] [[(1 : ℝ), 1]] (by norm_num) (by simp) (by simp)

/-- C8: over `M ≥ 1` identical draws, each equal to the ground truth,
`SignaltoNoiseRatioMC` returns the single-draw perfect-match SNR as the mean
and an error half-width of exactly 0. -/
theorem snrMC_identical_draws (gt : List ℝ) (M : ℕ) (hM : 1 ≤ M)
    (hN : 2 ≤ gt.length) :
    SignaltoNoiseRatioMC gt (List.replicate M gt) = (SignaltoNoiseRatio gt gt, 0) := by
  have hM0 : (M : ℝ) ≠ 0 := Nat.cast_ne_zero.mpr (by omega)
  simp only [SignaltoNoiseRatioMC, List.map_replicate, List.length_replicate,
    Prod.mk.injEq]
  constructor
  · rw [List.sum_replicate, nsmul_eq_mul]
    field_simp
  · have hstd : npStd (List.replicate M (SignaltoNoiseRatio gt gt)) = 0 := by
      unfold npStd
      rw [List.sum_replicate, nsmul_eq_mul, List.length_replicate]
      have hmean : (M : ℝ) * SignaltoNoiseRatio gt gt / (M : ℝ) =
          SignaltoNoiseRatio gt gt := by field_simp
      rw [hmean, List.map_replicate]
      norm_num
    rw [hstd, mul_zero]

/-- C8 (witness): three identical draws of the ground truth `[2, 2]` give the
perfect-match mean and zero half-width. -/
theorem snrMC_identical_draws_witness :
    SignaltoNoiseRatioMC [(2 : ℝ), 2] (List.replicate 3 [(2 : ℝ), 2]) =
      (SignaltoNoiseRatio [(2 : ℝ), 2] [(2 : ℝ), 2], 0) :=
  snrMC_identical_draws [(2 : ℝ), 2] 3 (by norm_num) (by simp)

/-- C7: for a series with strictly positive maximum, `adaptiveYLimit` rounds
the maximum up to the nearest multiple of `10 ^ floor(log10 max)`; in
particular it maps `[5, 42, 97]` to 100. -/
theorem adaptiveYLimit_spec_and_example :
    (∀ Ydata : List ℝ, 0 < listMax Ydata →
      adaptiveYLimit Ydata = yLimitSpec (listMax Ydata)) ∧
    adaptiveYLimit [5, 42, 97] = 100 := by
  constructor
  · intro Ydata _
    rfl
  · have hmax : listMax [5, 42, 97] = (97 : ℝ) := by
      norm_num [listMax, List.foldl, max_def]
    have hl10 : 0 < Real.log 10 := Real.log_pos (by norm_num)
    have hfloor : ⌊Real.log (97 : ℝ) / Real.log 10⌋ = (1 : ℤ) := by
      rw [Int.floor_eq_iff]
      constructor
      · push_cast
        rw [le_div_iff₀ hl10, one_mul]
        exact (Real.log_lt_log (by norm_num) (by norm_num)).le
      · push_cast
        rw [div_lt_iff₀ hl10]
        have h100 : (1 + 1 : ℝ) * Real.log 10 = Real.log 100 := by
          rw [show (100 : ℝ) = 10 ^ (2 : ℕ) by norm_num, Real.log_pow]
          push_cast
          ring
        rw [h100]
        exact Real.log_lt_log (by norm_num) (by norm_num)
    have hceil : ⌈(97 : ℝ) / 10⌉ = (10 : ℤ) := by
      rw [Int.ceil_eq_iff] <;> norm_num
    simp only [adaptiveYLimit, hmax, hfloor, zpow_one, hceil]
    norm_num
